import Mathlib

/-
Shallow embedding of the minesweeper repository (src/minesweeper.py).

The Python code is a small CLI minesweeper: a Grid holds a height x width
matrix of Cells; construction samples floor(width*height/4) distinct mine
positions, marks them, and writes an adjacent-mine count on every non-mine
cell; the game loop opens guessed cells until a mine is hit (loss) or no
unopened non-mine cell remains (win).

Modelling decisions:
* Python ints are Int; list indices produced by range(...) are Nat.
  Python floor division // is Int.fdiv.
* The cell matrix is List (List Cell), mirroring the Python list of lists.
  In-place mutation of a single cell (cells[r][c].field = v) is modelled by
  setCell, a functional update; out-of-range List.set is a no-op, but every
  update performed by the source happens at an in-bounds position.
* random.sample(population, k) is modelled by its contract: any list of
  length k of pairwise-distinct elements of the population
  (randomSampleSpec); it raises ValueError iff not (0 <= k <= len(population))
  (randomSampleOk).  Grid construction is parameterised by the sampled list.
* Python iterates over the set difference set(all) - set(mines) in an
  unspecified order; we iterate the filtered coordinate list.  The result is
  order-independent: each iteration writes adjacent_mines_count of a distinct
  cell and reads only has_mine flags, which no iteration changes.
* The interactive turn loop of Minesweeper.play is modelled by the function
  play, driven by the list of (already validated, as the front end
  guarantees) coordinate guesses the user would enter.
-/

namespace Mines

/-- Embedding of the Python class Cell (src/minesweeper.py): fields has_mine,
adjacent_mines_count, is_open. -/
structure Cell where
  has_mine : Bool
  adjacent_mines_count : Nat
  is_open : Bool
deriving Repr, DecidableEq

/-- Cell(has_mine=False, adjacent_mines_count=0): the cell produced by
Grid._create_empty_cells, also used as the out-of-range default of getCell. -/
def defaultCell : Cell := ⟨false, 0, false⟩

/-- Embedding of Cell.open: sets is_open = True. -/
def Cell.openCell (cell : Cell) : Cell := { cell with is_open := true }

/-- Embedding of Cell.unopened_non_mine: is_open is False and has_mine is False. -/
def Cell.unopened_non_mine (cell : Cell) : Bool :=
  !cell.is_open && !cell.has_mine

/-- Embedding of Cell.__str__: an opened cell displays its adjacent mine count
(the Python code returns str(count) when the count is nonzero and the string
"0" otherwise); an unopened cell displays a blank. -/
def Cell.str (cell : Cell) : String :=
  if cell.is_open then
    if cell.adjacent_mines_count ≠ 0 then toString cell.adjacent_mines_count else "0"
  else " "

/-- Reading self.cells[r][c]; out-of-range reads yield defaultCell (the Python
source only reads in-bounds positions, where the two agree). -/
def getCell (cells : List (List Cell)) (r c : Nat) : Cell :=
  (cells.getD r []).getD c defaultCell

/-- Functional update of self.cells[r][c] by f; a no-op out of range. -/
def setCell (cells : List (List Cell)) (r c : Nat) (f : Cell → Cell) : List (List Cell) :=
  cells.set r ((cells.getD r []).set c (f (getCell cells r c)))

/-- Embedding of Grid._create_empty_cells: height rows of width cells, all
Cell(has_mine=False, adjacent_mines_count=0); range(n) is empty for n <= 0. -/
def createEmptyCells (width height : Int) : List (List Cell) :=
  (List.range height.toNat).map (fun _ => (List.range width.toNat).map (fun _ => defaultCell))

/-- Embedding of Grid._generate_grid_coordinate_positions:
[(row, col) for row in range(height) for col in range(width)]. -/
def gridCoordinatePositions (width height : Int) : List (Nat × Nat) :=
  (List.range height.toNat) ×ˢ (List.range width.toNat)

/-- Embedding of self.mine_count = (self.width * self.height) // 4 (Python
floor division). -/
def mineCount (width height : Int) : Int := (width * height).fdiv 4

/-- Contract of random.sample(population, k), used by
Grid._generate_mine_positions: the output is a list of k pairwise-distinct
elements of the population. -/
def randomSampleSpec (population : List (Nat × Nat)) (k : Int)
    (sample : List (Nat × Nat)) : Prop :=
  (sample.length : Int) = k ∧ sample.Nodup ∧ ∀ p ∈ sample, p ∈ population

/-- random.sample(population, k) succeeds (does not raise ValueError) iff
0 <= k <= len(population). -/
def randomSampleOk (population : List (Nat × Nat)) (k : Int) : Bool :=
  decide (0 ≤ k) && decide (k ≤ (population.length : Int))

/-- Grid.__init__(width, height) runs to completion without an exception iff
the random.sample call inside Grid._generate_mine_positions succeeds; the
constructor itself performs no dimension validation. -/
def gridInitOk (width height : Int) : Bool :=
  randomSampleOk (gridCoordinatePositions width height) (mineCount width height)

/-- Embedding of Grid._place_mines: for each sampled (row, col), set
cells[row][col].has_mine = True. -/
def placeMines (cells : List (List Cell)) (minePositions : List (Nat × Nat)) :
    List (List Cell) :=
  minePositions.foldl
    (fun cs p => setCell cs p.1 p.2 (fun cell => { cell with has_mine := true })) cells

/-- Embedding of Grid._is_valid_position:
0 <= row_index < height and 0 <= column_index < width. -/
def isValidPosition (width height : Int) (rowIndex columnIndex : Int) : Bool :=
  decide (0 ≤ rowIndex) && decide (rowIndex < height) &&
  decide (0 ≤ columnIndex) && decide (columnIndex < width)

/-- The three integers produced by range(n-1, n+2) in
Grid._set_adjacent_mine_count. -/
def intRange3 (n : Nat) : List Int := [(n : Int) - 1, (n : Int), (n : Int) + 1]

/-- The count computed by one iteration of Grid._set_adjacent_mine_count: over
the 3x3 window around (er, ec) (the Python loops do not exclude the centre),
count positions that pass _is_valid_position and hold a mine. -/
def adjMineCount (width height : Int) (cells : List (List Cell)) (er ec : Nat) : Nat :=
  ((intRange3 er) ×ˢ (intRange3 ec)).countP
    (fun q => isValidPosition width height q.1 q.2 &&
      (getCell cells q.1.toNat q.2.toNat).has_mine)

/-- Embedding of Grid._set_adjacent_mine_count: for each non-mine position,
write the 3x3-window mine count into that cell.  Each step writes a distinct
cell and reads only has_mine flags, so the iteration order of the Python set
is immaterial. -/
def setAdjacentMineCounts (width height : Int) (cells : List (List Cell))
    (nonMinePositions : List (Nat × Nat)) : List (List Cell) :=
  nonMinePositions.foldl
    (fun cs p => setCell cs p.1 p.2
      (fun cell => { cell with adjacent_mines_count := adjMineCount width height cs p.1 p.2 }))
    cells

/-- Embedding of Grid._identify_non_mine_positions:
set(coordinate_positions) - set(mine_positions), as the coordinate list with
mine positions removed. -/
def nonMinePositions (coords minePos : List (Nat × Nat)) : List (Nat × Nat) :=
  coords.filter (fun p => decide (p ∉ minePos))

/-- Embedding of the Python class Grid: width, height, the cell matrix, and
the derived mine_count. -/
structure Grid where
  width : Int
  height : Int
  cells : List (List Cell)
  mine_count : Int
deriving Repr, DecidableEq

/-- Embedding of Grid.__init__ together with
Grid._set_cell_mines_and_adjacent_counts, parameterised by the list returned
by random.sample inside Grid._generate_mine_positions. -/
def mkGrid (width height : Int) (minePos : List (Nat × Nat)) : Grid :=
  { width := width, height := height,
    cells := setAdjacentMineCounts width height
      (placeMines (createEmptyCells width height) minePos)
      (nonMinePositions (gridCoordinatePositions width height) minePos),
    mine_count := mineCount width height }

/-- Embedding of Grid.has_unopened_non_mines: scan all rows for a cell with
unopened_non_mine. -/
def Grid.has_unopened_non_mines (g : Grid) : Bool :=
  g.cells.any (fun row => row.any (fun cell => cell.unopened_non_mine))

/-- Python list subscript l[i]: a negative index wraps once by adding len(l);
an index out of [-len(l), len(l)) raises IndexError, modelled as none. -/
def pyGet {α : Type} (l : List α) (i : Int) : Option α :=
  let j : Int := if i < 0 then i + l.length else i
  if 0 ≤ j ∧ j < (l.length : Int) then l[j.toNat]? else none

/-- Embedding of Grid.is_cell_opened: self.cells[row_index][column_index].is_open
with Python subscript semantics. -/
def Grid.is_cell_opened (g : Grid) (rowIndex columnIndex : Int) : Option Bool :=
  (pyGet g.cells rowIndex).bind fun row =>
    (pyGet row columnIndex).map fun cell => cell.is_open

/-- Embedding of Grid.has_mine_at: self.cells[coordinate.row][coordinate.column].has_mine
with Python subscript semantics. -/
def Grid.has_mine_at (g : Grid) (coordinate : Int × Int) : Option Bool :=
  (pyGet g.cells coordinate.1).bind fun row =>
    (pyGet row coordinate.2).map fun cell => cell.has_mine

/-- Opening a cell during play:
self.grid.cells[guess.row][guess.column].open(). -/
def Grid.openCell (g : Grid) (r c : Nat) : Grid :=
  { g with cells := setCell g.cells r c Cell.openCell }

/-- Game outcome of Minesweeper.play, per the spec state machine. -/
inductive GameState
  | Playing
  | Won
  | Lost
deriving Repr, DecidableEq

/-- Embedding of Minesweeper.play, driven by the list of coordinate guesses
the front end would deliver (each guaranteed in-bounds and unopened): while
has_unopened_non_mines, take a guess; a mine guess ends the game as Lost
without opening the cell, otherwise the cell is opened; when the predicate
turns false the loop exits into the win branch.  Playing models a game still
blocked on further input. -/
def play (g : Grid) : List (Nat × Nat) → GameState × Grid
  | [] => if g.has_unopened_non_mines then (GameState.Playing, g) else (GameState.Won, g)
  | p :: rest =>
    if g.has_unopened_non_mines then
      if (getCell g.cells p.1 p.2).has_mine then (GameState.Lost, g)
      else play (g.openCell p.1 p.2) rest
    else (GameState.Won, g)

/-- Total number of mine cells in the matrix. -/
def Grid.totalMines (g : Grid) : Nat :=
  (g.cells.map (fun row => row.countP (fun cell => cell.has_mine))).sum

/-- Whether a position is in the sampled mine list. -/
def mineAt (minePos : List (Nat × Nat)) (r c : Nat) : Bool :=
  decide ((r, c) ∈ minePos)

/-- The 3x3-window count of adjMineCount expressed directly on the sampled
mine positions. -/
def neighborMineCount (width height : Int) (minePos : List (Nat × Nat)) (er ec : Nat) : Nat :=
  ((intRange3 er) ×ˢ (intRange3 ec)).countP
    (fun q => isValidPosition width height q.1 q.2 && mineAt minePos q.1.toNat q.2.toNat)

/-- The cell the constructor leaves at an in-bounds position (r, c). -/
def gridCellValue (width height : Int) (minePos : List (Nat × Nat)) (r c : Nat) : Cell :=
  if (r, c) ∈ minePos then ⟨true, 0, false⟩
  else ⟨false, neighborMineCount width height minePos r c, false⟩

instance (pop : List (Nat × Nat)) (k : Int) (s : List (Nat × Nat)) :
    Decidable (randomSampleSpec pop k s) :=
  decidable_of_iff ((s.length : Int) = k ∧ s.Nodup ∧ ∀ p ∈ s, p ∈ pop) Iff.rfl

/-- Cell value written by the spec sentence (claim C2): count of mine cells of
the grid among the 8 neighbour offsets, skipping neighbours outside
[0,height) x [0,width). -/
def specAdjacentMineCount (g : Grid) (r c : Nat) : Nat :=
  ([(-1, -1), (-1, 0), (-1, 1), (0, -1), (0, 1), (1, -1), (1, 0), (1, 1)] :
      List (Int × Int)).countP
    (fun d =>
      decide (0 ≤ (r : Int) + d.1) && decide ((r : Int) + d.1 < g.height) &&
      decide (0 ≤ (c : Int) + d.2) && decide ((c : Int) + d.2 < g.width) &&
      (getCell g.cells ((r : Int) + d.1).toNat ((c : Int) + d.2).toNat).has_mine)

/-! Basic lemmas about the cell-matrix update. -/

theorem list_set_getD_self {α : Type} (l : List α) (i : Nat) (d : α) (h : i < l.length) :
    l.set i (l.getD i d) = l := by
  apply List.ext_getElem?
  intro n
  by_cases hn : n = i
  · subst hn
    rw [List.getElem?_set_self (by simpa using h)]
    simp [List.getD_eq_getElem?_getD, List.getElem?_eq_getElem h]
  · rw [List.getElem?_set_ne (by omega)]

theorem length_setCell (cells : List (List Cell)) (r c : Nat) (f : Cell → Cell) :
    (setCell cells r c f).length = cells.length := by
  simp [setCell]

theorem getD_setCell_length (cells : List (List Cell)) (r c : Nat) (f : Cell → Cell)
    (r' : Nat) :
    ((setCell cells r c f).getD r' []).length = (cells.getD r' []).length := by
  unfold setCell
  by_cases hr : r' = r
  · subst hr
    by_cases hlen : r' < cells.length
    · simp [List.getD_eq_getElem?_getD, List.getElem?_set_self (by simpa using hlen)]
    · rw [List.set_eq_of_length_le (by omega)]
  · simp [List.getD_eq_getElem?_getD, List.getElem?_set_ne (fun h => hr h.symm)]

theorem getD_set_self {α : Type} (l : List α) (i : Nat) (a d : α) (h : i < l.length) :
    (l.set i a).getD i d = a := by
  simp [List.getD_eq_getElem?_getD, List.getElem?_set_self (by simpa using h)]

theorem getD_set_ne {α : Type} (l : List α) (i j : Nat) (a d : α) (h : i ≠ j) :
    (l.set i a).getD j d = l.getD j d := by
  simp [List.getD_eq_getElem?_getD, List.getElem?_set_ne h]

theorem getCell_setCell (cells : List (List Cell)) (r c : Nat) (f : Cell → Cell)
    (r' c' : Nat) :
    getCell (setCell cells r c f) r' c' =
      if r' = r ∧ c' = c ∧ r < cells.length ∧ c < (cells.getD r []).length
      then f (getCell cells r c)
      else getCell cells r' c' := by
  unfold setCell getCell
  by_cases hr : r' = r
  · subst hr
    by_cases hlen : r' < cells.length
    · rw [getD_set_self _ _ _ _ hlen]
      by_cases hc : c' = c
      · subst hc
        by_cases hcl : c' < (cells.getD r' []).length
        · rw [if_pos ⟨rfl, rfl, hlen, hcl⟩]
          exact getD_set_self _ _ _ _ hcl
        · rw [if_neg (by tauto)]
          rw [List.set_eq_of_length_le (by omega)]
      · rw [if_neg (by tauto)]
        exact getD_set_ne _ _ _ _ _ (fun h => hc h.symm)
    · rw [if_neg (by tauto)]
      rw [List.set_eq_of_length_le (by omega)]
  · rw [if_neg (by tauto)]
    rw [getD_set_ne _ _ _ _ _ (fun h => hr h.symm)]

theorem getCell_setCell_ne (cells : List (List Cell)) (r c : Nat) (f : Cell → Cell)
    (r' c' : Nat) (h : ¬(r' = r ∧ c' = c)) :
    getCell (setCell cells r c f) r' c' = getCell cells r' c' := by
  rw [getCell_setCell]
  exact if_neg (by tauto)

/-! Characterisation of the mine-placement pass. -/

theorem placeMines_cons (cells : List (List Cell)) (p : Nat × Nat)
    (ps : List (Nat × Nat)) :
    placeMines cells (p :: ps) =
      placeMines (setCell cells p.1 p.2 (fun cell => { cell with has_mine := true })) ps :=
  rfl

theorem length_placeMines (cells : List (List Cell)) (ps : List (Nat × Nat)) :
    (placeMines cells ps).length = cells.length := by
  induction ps generalizing cells with
  | nil => rfl
  | cons p ps ih => rw [placeMines_cons, ih, length_setCell]

theorem getD_placeMines_length (cells : List (List Cell)) (ps : List (Nat × Nat))
    (r : Nat) :
    ((placeMines cells ps).getD r []).length = ((cells.getD r []).length) := by
  induction ps generalizing cells with
  | nil => rfl
  | cons p ps ih => rw [placeMines_cons, ih, getD_setCell_length]

theorem getCell_placeMines_not_mem (cells : List (List Cell)) (ps : List (Nat × Nat))
    (r c : Nat) (h : (r, c) ∉ ps) :
    getCell (placeMines cells ps) r c = getCell cells r c := by
  induction ps generalizing cells with
  | nil => rfl
  | cons p ps ih =>
    rw [placeMines_cons, ih _ (fun hm => h (List.mem_cons_of_mem _ hm))]
    exact getCell_setCell_ne _ _ _ _ _ _
      (fun he => h (by rw [List.mem_cons]; exact Or.inl (Prod.ext he.1 he.2)))

theorem getCell_placeMines_mem (cells : List (List Cell)) (ps : List (Nat × Nat))
    (r c : Nat) (hm : (r, c) ∈ ps) (h1 : r < cells.length)
    (h2 : c < (cells.getD r []).length) :
    getCell (placeMines cells ps) r c = { getCell cells r c with has_mine := true } := by
  induction ps generalizing cells with
  | nil => cases hm
  | cons p ps ih =>
    by_cases hM : (r, c) ∈ ps
    · rw [placeMines_cons,
        ih _ hM (by rw [length_setCell]; exact h1) (by rw [getD_setCell_length]; exact h2),
        getCell_setCell]
      split_ifs with h
      · obtain ⟨e1, e2, -, -⟩ := h
        rw [← e1, ← e2]
      · rfl
    · have hP : (r, c) = p := by
        rcases List.mem_cons.mp hm with h | h
        · exact h
        · exact absurd h hM
      subst hP
      rw [placeMines_cons, getCell_placeMines_not_mem _ _ _ _ hM, getCell_setCell,
        if_pos ⟨rfl, rfl, h1, h2⟩]

/-! Characterisation of the adjacent-count pass. -/

theorem getCell_setCell_field {T : Type} (proj : Cell → T) (cells : List (List Cell))
    (r c : Nat) (f : Cell → Cell) (hf : ∀ cell, proj (f cell) = proj cell) (a b : Nat) :
    proj (getCell (setCell cells r c f) a b) = proj (getCell cells a b) := by
  rw [getCell_setCell]
  split_ifs with h
  · rw [hf, ← h.1, ← h.2.1]
  · rfl

theorem setAdj_cons (width height : Int) (cells : List (List Cell)) (p : Nat × Nat)
    (ps : List (Nat × Nat)) :
    setAdjacentMineCounts width height cells (p :: ps) =
      setAdjacentMineCounts width height
        (setCell cells p.1 p.2
          (fun cell =>
            { cell with adjacent_mines_count := adjMineCount width height cells p.1 p.2 }))
        ps :=
  rfl

theorem length_setAdj (width height : Int) (cells : List (List Cell))
    (ps : List (Nat × Nat)) :
    (setAdjacentMineCounts width height cells ps).length = cells.length := by
  induction ps generalizing cells with
  | nil => rfl
  | cons p ps ih => rw [setAdj_cons, ih, length_setCell]

theorem getD_setAdj_length (width height : Int) (cells : List (List Cell))
    (ps : List (Nat × Nat)) (r : Nat) :
    ((setAdjacentMineCounts width height cells ps).getD r []).length =
      ((cells.getD r []).length) := by
  induction ps generalizing cells with
  | nil => rfl
  | cons p ps ih => rw [setAdj_cons, ih, getD_setCell_length]

theorem has_mine_setCell_count (cells : List (List Cell)) (p1 p2 n a b : Nat) :
    (getCell (setCell cells p1 p2
        (fun cell => { cell with adjacent_mines_count := n })) a b).has_mine =
      (getCell cells a b).has_mine :=
  getCell_setCell_field (fun cell => cell.has_mine) cells p1 p2
    (fun cell => { cell with adjacent_mines_count := n }) (fun _ => rfl) a b

theorem is_open_setCell_count (cells : List (List Cell)) (p1 p2 n a b : Nat) :
    (getCell (setCell cells p1 p2
        (fun cell => { cell with adjacent_mines_count := n })) a b).is_open =
      (getCell cells a b).is_open :=
  getCell_setCell_field (fun cell => cell.is_open) cells p1 p2
    (fun cell => { cell with adjacent_mines_count := n }) (fun _ => rfl) a b

theorem has_mine_setAdj (width height : Int) (cells : List (List Cell))
    (ps : List (Nat × Nat)) (a b : Nat) :
    (getCell (setAdjacentMineCounts width height cells ps) a b).has_mine =
      (getCell cells a b).has_mine := by
  induction ps generalizing cells with
  | nil => rfl
  | cons p ps ih =>
    rw [setAdj_cons, ih, has_mine_setCell_count]

theorem is_open_setAdj (width height : Int) (cells : List (List Cell))
    (ps : List (Nat × Nat)) (a b : Nat) :
    (getCell (setAdjacentMineCounts width height cells ps) a b).is_open =
      (getCell cells a b).is_open := by
  induction ps generalizing cells with
  | nil => rfl
  | cons p ps ih =>
    rw [setAdj_cons, ih, is_open_setCell_count]

theorem adjMineCount_congr (width height : Int) (cs cs' : List (List Cell))
    (hmine : ∀ a b, (getCell cs a b).has_mine = (getCell cs' a b).has_mine)
    (er ec : Nat) :
    adjMineCount width height cs er ec = adjMineCount width height cs' er ec := by
  unfold adjMineCount
  apply List.countP_congr
  intro q hq
  rw [hmine]

theorem getCell_setAdj_not_mem (width height : Int) (cells : List (List Cell))
    (ps : List (Nat × Nat)) (r c : Nat) (h : (r, c) ∉ ps) :
    getCell (setAdjacentMineCounts width height cells ps) r c = getCell cells r c := by
  induction ps generalizing cells with
  | nil => rfl
  | cons p ps ih =>
    rw [setAdj_cons, ih _ (fun hm => h (List.mem_cons_of_mem _ hm))]
    exact getCell_setCell_ne _ _ _ _ _ _
      (fun he => h (by rw [List.mem_cons]; exact Or.inl (Prod.ext he.1 he.2)))

theorem getCell_setAdj_mem (width height : Int) (cells : List (List Cell))
    (ps : List (Nat × Nat)) (r c : Nat) (hnd : ps.Nodup) (hm : (r, c) ∈ ps)
    (h1 : r < cells.length) (h2 : c < (cells.getD r []).length) :
    getCell (setAdjacentMineCounts width height cells ps) r c =
      { getCell cells r c with
          adjacent_mines_count := adjMineCount width height cells r c } := by
  induction ps generalizing cells with
  | nil => cases hm
  | cons p ps ih =>
    obtain ⟨hnp, hnd'⟩ := List.nodup_cons.mp hnd
    by_cases hM : (r, c) ∈ ps
    · have hne : (r, c) ≠ p := fun he => hnp (he ▸ hM)
      rw [setAdj_cons,
        ih _ hnd' hM (by rw [length_setCell]; exact h1)
          (by rw [getD_setCell_length]; exact h2),
        getCell_setCell_ne _ _ _ _ _ _ (fun he => hne (Prod.ext he.1 he.2)),
        adjMineCount_congr _ _ _ cells (fun a b => has_mine_setCell_count _ _ _ _ a b)]
    · have hP : (r, c) = p := by
        rcases List.mem_cons.mp hm with h | h
        · exact h
        · exact absurd h hM
      subst hP
      rw [setAdj_cons, getCell_setAdj_not_mem _ _ _ _ _ _ hM, getCell_setCell,
        if_pos ⟨rfl, rfl, h1, h2⟩]

/-! Characterisation of the constructed grid. -/

theorem length_createEmptyCells (width height : Int) :
    (createEmptyCells width height).length = height.toNat := by
  simp [createEmptyCells]

theorem getD_createEmptyCells (width height : Int) (r : Nat) :
    (createEmptyCells width height).getD r [] =
      if r < height.toNat
      then List.map (fun _ => defaultCell) (List.range width.toNat)
      else [] := by
  unfold createEmptyCells
  rcases Nat.lt_or_ge r height.toNat with hr | hr
  · rw [if_pos hr, List.getD_eq_getElem?_getD, List.getElem?_map, List.getElem?_range hr]
    rfl
  · rw [if_neg (Nat.not_lt.mpr hr), List.getD_eq_getElem?_getD,
      List.getElem?_eq_none (by simpa using hr)]
    rfl

theorem getD_createEmptyCells_length (width height : Int) (r : Nat) :
    ((createEmptyCells width height).getD r []).length =
      if r < height.toNat then width.toNat else 0 := by
  rw [getD_createEmptyCells]
  split_ifs <;> simp

theorem getCell_createEmptyCells (width height : Int) (r c : Nat) :
    getCell (createEmptyCells width height) r c = defaultCell := by
  rw [getCell, getD_createEmptyCells]
  split_ifs with hr
  · rcases Nat.lt_or_ge c width.toNat with hc | hc
    · rw [List.getD_eq_getElem?_getD, List.getElem?_map, List.getElem?_range hc]
      rfl
    · rw [List.getD_eq_getElem?_getD, List.getElem?_eq_none (by simpa using hc)]
      rfl
  · rfl

theorem mem_gridCoordinatePositions (width height : Int) (p : Nat × Nat) :
    p ∈ gridCoordinatePositions width height ↔
      p.1 < height.toNat ∧ p.2 < width.toNat := by
  cases p
  simp [gridCoordinatePositions, List.mem_range]

theorem nodup_gridCoordinatePositions (width height : Int) :
    (gridCoordinatePositions width height).Nodup :=
  (List.nodup_range _).product (List.nodup_range _)

theorem mem_nonMinePositions (coords minePos : List (Nat × Nat)) (p : Nat × Nat) :
    p ∈ nonMinePositions coords minePos ↔ p ∈ coords ∧ p ∉ minePos := by
  simp [nonMinePositions]

theorem nodup_nonMinePositions (coords minePos : List (Nat × Nat))
    (h : coords.Nodup) : (nonMinePositions coords minePos).Nodup :=
  h.filter _

theorem has_mine_placed (width height : Int) (minePos : List (Nat × Nat))
    (hsub : ∀ p ∈ minePos, p ∈ gridCoordinatePositions width height) (a b : Nat) :
    (getCell (placeMines (createEmptyCells width height) minePos) a b).has_mine =
      mineAt minePos a b := by
  by_cases hm : (a, b) ∈ minePos
  · have hb := (mem_gridCoordinatePositions width height _).mp (hsub _ hm)
    rw [getCell_placeMines_mem _ _ _ _ hm
      (by rw [length_createEmptyCells]; exact hb.1)
      (by rw [getD_createEmptyCells_length, if_pos hb.1]; exact hb.2)]
    simp [mineAt, hm]
  · rw [getCell_placeMines_not_mem _ _ _ _ hm, getCell_createEmptyCells]
    simp [mineAt, hm, defaultCell]

theorem adjMineCount_placed (width height : Int) (minePos : List (Nat × Nat))
    (hsub : ∀ p ∈ minePos, p ∈ gridCoordinatePositions width height) (er ec : Nat) :
    adjMineCount width height (placeMines (createEmptyCells width height) minePos) er ec =
      neighborMineCount width height minePos er ec := by
  unfold adjMineCount neighborMineCount
  apply List.countP_congr
  intro q _
  rw [has_mine_placed width height minePos hsub]

theorem getCell_mkGrid (width height : Int) (minePos : List (Nat × Nat))
    (hsub : ∀ p ∈ minePos, p ∈ gridCoordinatePositions width height) (r c : Nat) :
    getCell (mkGrid width height minePos).cells r c =
      if r < height.toNat ∧ c < width.toNat
      then gridCellValue width height minePos r c
      else defaultCell := by
  simp only [mkGrid]
  by_cases hb : r < height.toNat ∧ c < width.toNat
  · rw [if_pos hb]
    by_cases hm : (r, c) ∈ minePos
    · rw [getCell_setAdj_not_mem _ _ _ _ _ _
        (fun hx => (((mem_nonMinePositions _ _ _).mp hx).2 hm)),
        getCell_placeMines_mem _ _ _ _ hm
          (by rw [length_createEmptyCells]; exact hb.1)
          (by rw [getD_createEmptyCells_length, if_pos hb.1]; exact hb.2),
        getCell_createEmptyCells]
      simp [gridCellValue, hm, defaultCell]
    · rw [getCell_setAdj_mem _ _ _ _ _ _
        (nodup_nonMinePositions _ _ (nodup_gridCoordinatePositions width height))
        ((mem_nonMinePositions _ _ _).mpr
          ⟨(mem_gridCoordinatePositions width height _).mpr ⟨hb.1, hb.2⟩, hm⟩)
        (by rw [length_placeMines, length_createEmptyCells]; exact hb.1)
        (by rw [getD_placeMines_length, getD_createEmptyCells_length, if_pos hb.1]
            exact hb.2),
        getCell_placeMines_not_mem _ _ _ _ hm, getCell_createEmptyCells,
        adjMineCount_placed width height minePos hsub]
      simp [gridCellValue, hm, defaultCell]
  · rw [if_neg hb]
    have hnc : (r, c) ∉ gridCoordinatePositions width height := fun hx =>
      hb ((mem_gridCoordinatePositions width height _).mp hx)
    rw [getCell_setAdj_not_mem _ _ _ _ _ _
        (fun hx => hnc ((mem_nonMinePositions _ _ _).mp hx).1),
      getCell_placeMines_not_mem _ _ _ _ (fun hx => hnc (hsub _ hx)),
      getCell_createEmptyCells]

theorem has_mine_mkGrid (width height : Int) (minePos : List (Nat × Nat))
    (hsub : ∀ p ∈ minePos, p ∈ gridCoordinatePositions width height) (a b : Nat) :
    (getCell (mkGrid width height minePos).cells a b).has_mine = mineAt minePos a b := by
  simp only [mkGrid]
  rw [has_mine_setAdj, has_mine_placed width height minePos hsub]

theorem length_mkGrid_cells (width height : Int) (minePos : List (Nat × Nat)) :
    (mkGrid width height minePos).cells.length = height.toNat := by
  simp only [mkGrid]
  rw [length_setAdj, length_placeMines, length_createEmptyCells]

theorem getD_mkGrid_length (width height : Int) (minePos : List (Nat × Nat)) (r : Nat) :
    ((mkGrid width height minePos).cells.getD r []).length =
      if r < height.toNat then width.toNat else 0 := by
  simp only [mkGrid]
  rw [getD_setAdj_length, getD_placeMines_length, getD_createEmptyCells_length]

/-! Counting mines in the finished matrix. -/

theorem getD_eq_getElem_of_lt {α : Type} (l : List α) (i : Nat) (d : α)
    (h : i < l.length) : l.getD i d = l[i] := by
  rw [List.getD_eq_getElem?_getD, List.getElem?_eq_getElem h]
  rfl

theorem countP_sprod {α β : Type} (l₁ : List α) (l₂ : List β) (p : α × β → Bool) :
    (l₁ ×ˢ l₂).countP p = (l₁.map (fun a => l₂.countP (fun b => p (a, b)))).sum := by
  induction l₁ with
  | nil => rfl
  | cons a l₁ ih =>
    rw [List.product_cons, List.countP_append, List.countP_map, ih, List.map_cons,
      List.sum_cons]
    rfl

theorem countP_mem_eq_length {α : Type} [DecidableEq α] (L S : List α)
    (hL : L.Nodup) (hS : S.Nodup) (hsub : ∀ a ∈ S, a ∈ L) :
    L.countP (fun a => decide (a ∈ S)) = S.length := by
  rw [List.countP_eq_length_filter]
  have hperm : (L.filter (fun a => decide (a ∈ S))).Perm S := by
    rw [List.perm_ext_iff_of_nodup (hL.filter _) hS]
    intro a
    simp only [List.mem_filter, decide_eq_true_eq]
    exact ⟨fun h => h.2, fun h => ⟨hsub a h, h⟩⟩
  exact hperm.length_eq

theorem matrix_eq_map (cs : List (List Cell)) (H W : Nat) (hlen : cs.length = H)
    (hrow : ∀ r, r < H → (cs.getD r []).length = W) :
    cs = (List.range H).map (fun r => (List.range W).map (fun c => getCell cs r c)) := by
  apply List.ext_getElem
  · rw [hlen, List.length_map, List.length_range]
  · intro i h1 h2
    rw [List.getElem_map, List.getElem_range]
    have hiH : i < H := hlen ▸ h1
    have hlenrow : (cs.getD i []).length = W := hrow i hiH
    rw [getD_eq_getElem_of_lt cs i [] h1] at hlenrow
    apply List.ext_getElem
    · rw [hlenrow, List.length_map, List.length_range]
    · intro j j1 j2
      rw [List.getElem_map, List.getElem_range, getCell,
        getD_eq_getElem_of_lt cs i [] h1, getD_eq_getElem_of_lt _ j _ j1]

theorem totalMines_mkGrid (width height : Int) (minePos : List (Nat × Nat))
    (hnd : minePos.Nodup)
    (hsub : ∀ p ∈ minePos, p ∈ gridCoordinatePositions width height) :
    (mkGrid width height minePos).totalMines = minePos.length := by
  have hcells : (mkGrid width height minePos).cells =
      (List.range height.toNat).map (fun r => (List.range width.toNat).map
        (fun c => getCell (mkGrid width height minePos).cells r c)) :=
    matrix_eq_map _ _ _ (length_mkGrid_cells width height minePos)
      (fun r hr => by rw [getD_mkGrid_length, if_pos hr])
  have hrowcount : ∀ r : Nat,
      ((List.range width.toNat).map
        (fun c => getCell (mkGrid width height minePos).cells r c)).countP
          (fun cell => cell.has_mine) =
      (List.range width.toNat).countP (fun c => mineAt minePos r c) := by
    intro r
    rw [List.countP_map]
    apply List.countP_congr
    intro c _
    simp only [Function.comp_apply]
    rw [has_mine_mkGrid width height minePos hsub r c]
  rw [Grid.totalMines]
  conv_lhs => rw [hcells, List.map_map]
  show ((List.range height.toNat).map
      (fun r => ((List.range width.toNat).map
        (fun c => getCell (mkGrid width height minePos).cells r c)).countP
          (fun cell => cell.has_mine))).sum = minePos.length
  rw [List.map_congr_left (fun r _ => hrowcount r)]
  have hs := countP_sprod (List.range height.toNat) (List.range width.toNat)
    (fun q => mineAt minePos q.1 q.2)
  dsimp only at hs
  rw [← hs]
  have h2 := countP_mem_eq_length (gridCoordinatePositions width height) minePos
    (nodup_gridCoordinatePositions width height) hnd hsub
  rw [← h2]
  apply List.countP_congr
  intro q _
  cases q
  simp [mineAt]

/-! Field preservation under opening cells. -/

theorem has_mine_openCell (g : Grid) (r c a b : Nat) :
    (getCell (g.openCell r c).cells a b).has_mine = (getCell g.cells a b).has_mine :=
  getCell_setCell_field (fun cell => cell.has_mine) g.cells r c Cell.openCell
    (fun _ => rfl) a b

theorem count_openCell (g : Grid) (r c a b : Nat) :
    (getCell (g.openCell r c).cells a b).adjacent_mines_count =
      (getCell g.cells a b).adjacent_mines_count :=
  getCell_setCell_field (fun cell => cell.adjacent_mines_count) g.cells r c Cell.openCell
    (fun _ => rfl) a b

theorem has_mine_foldOpen (ops : List (Nat × Nat)) (g : Grid) (a b : Nat) :
    (getCell (ops.foldl (fun g' q => g'.openCell q.1 q.2) g).cells a b).has_mine =
      (getCell g.cells a b).has_mine := by
  induction ops generalizing g with
  | nil => rfl
  | cons p ops ih => rw [List.foldl_cons, ih, has_mine_openCell]

theorem count_foldOpen (ops : List (Nat × Nat)) (g : Grid) (a b : Nat) :
    (getCell (ops.foldl (fun g' q => g'.openCell q.1 q.2) g).cells a b).adjacent_mines_count =
      (getCell g.cells a b).adjacent_mines_count := by
  induction ops generalizing g with
  | nil => rfl
  | cons p ops ih => rw [List.foldl_cons, ih, count_openCell]

/-! Claim theorems. -/

/-- C4: for every grid state, has_unopened_non_mines() returns true iff there
exists at least one cell with hasMine=false and isOpen=false; in particular it
becomes false exactly when every non-mine cell has been opened. -/
theorem C4_has_unopened_non_mines_iff (g : Grid) :
    g.has_unopened_non_mines = true ↔
      ∃ row ∈ g.cells, ∃ cell ∈ row, cell.has_mine = false ∧ cell.is_open = false := by
  simp only [Grid.has_unopened_non_mines, List.any_eq_true, Cell.unopened_non_mine,
    Bool.and_eq_true, Bool.not_eq_true']
  tauto

/-- C7: open(row, col) sets isOpen=true on the named cell, leaves that cell's
hasMine and adjacent_mines_count unchanged, changes no other cell, and leaves
the grid's width, height and mine_count unchanged: only isOpen flags ever
mutate during play. -/
theorem C7_open_frame (g : Grid) (r c : Nat)
    (h1 : r < g.cells.length) (h2 : c < (g.cells.getD r []).length) :
    (g.openCell r c).width = g.width ∧
    (g.openCell r c).height = g.height ∧
    (g.openCell r c).mine_count = g.mine_count ∧
    getCell (g.openCell r c).cells r c = { getCell g.cells r c with is_open := true } ∧
    ∀ r' c' : Nat, ¬(r' = r ∧ c' = c) →
      getCell (g.openCell r c).cells r' c' = getCell g.cells r' c' := by
  refine ⟨rfl, rfl, rfl, ?_, ?_⟩
  · show getCell (setCell g.cells r c Cell.openCell) r c = _
    rw [getCell_setCell, if_pos ⟨rfl, rfl, h1, h2⟩]
    rfl
  · intro r' c' hne
    exact getCell_setCell_ne _ _ _ _ _ _ hne

/-- Witness for C7 on the concrete grid mkGrid 2 2 with the mine at (0,0),
opening cell (0,1). -/
theorem C7_open_frame_witness :
    0 < (mkGrid 2 2 [(0, 0)]).cells.length ∧
    1 < ((mkGrid 2 2 [(0, 0)]).cells.getD 0 []).length ∧
    getCell ((mkGrid 2 2 [(0, 0)]).openCell 0 1).cells 0 1 =
      { getCell (mkGrid 2 2 [(0, 0)]).cells 0 1 with is_open := true } :=
  ⟨by decide, by decide,
    (C7_open_frame (mkGrid 2 2 [(0, 0)]) 0 1 (by decide) (by decide)).2.2.2.1⟩

/-- C8: opening an already-open in-bounds cell yields a state identical to the
state before the second open; no cell's hasMine, adjacent_mines_count or
isOpen changes. -/
theorem C8_open_idempotent (g : Grid) (r c : Nat)
    (h1 : r < g.cells.length) (h2 : c < (g.cells.getD r []).length)
    (h3 : (getCell g.cells r c).is_open = true) :
    g.openCell r c = g := by
  have hcell : Cell.openCell (getCell g.cells r c) = getCell g.cells r c := by
    cases hgc : getCell g.cells r c with
    | mk m n o =>
      rw [hgc] at h3
      simp only [Cell.openCell]
      simp at h3
      rw [h3]
  have hcells : setCell g.cells r c Cell.openCell = g.cells := by
    show g.cells.set r ((g.cells.getD r []).set c
      (Cell.openCell (getCell g.cells r c))) = g.cells
    rw [hcell]
    show g.cells.set r ((g.cells.getD r []).set c
      ((g.cells.getD r []).getD c defaultCell)) = g.cells
    rw [list_set_getD_self _ _ _ h2, list_set_getD_self _ _ _ h1]
  show { g with cells := setCell g.cells r c Cell.openCell } = g
  rw [hcells]

/-- Witness for C8: re-opening the already-open cell (0,1) of a concrete grid
leaves the grid unchanged. -/
theorem C8_open_idempotent_witness :
    0 < ((mkGrid 2 2 [(0, 0)]).openCell 0 1).cells.length ∧
    1 < (((mkGrid 2 2 [(0, 0)]).openCell 0 1).cells.getD 0 []).length ∧
    (getCell ((mkGrid 2 2 [(0, 0)]).openCell 0 1).cells 0 1).is_open = true ∧
    ((mkGrid 2 2 [(0, 0)]).openCell 0 1).openCell 0 1 =
      (mkGrid 2 2 [(0, 0)]).openCell 0 1 :=
  ⟨by decide, by decide, by decide,
    C8_open_idempotent ((mkGrid 2 2 [(0, 0)]).openCell 0 1) 0 1
      (by decide) (by decide) (by decide)⟩

/-- C5: in the turn loop, guessing a coordinate whose cell has hasMine=true
ends the game as Lost immediately, with the grid returned unchanged; in
particular the guessed mine cell's isOpen flag remains false. -/
theorem C5_mine_guess_loses (g : Grid) (p : Nat × Nat) (rest : List (Nat × Nat))
    (h1 : g.has_unopened_non_mines = true)
    (h2 : (getCell g.cells p.1 p.2).has_mine = true)
    (h3 : (getCell g.cells p.1 p.2).is_open = false) :
    play g (p :: rest) = (GameState.Lost, g) ∧
    (getCell (play g (p :: rest)).2.cells p.1 p.2).is_open = false := by
  have hp : play g (p :: rest) = (GameState.Lost, g) := by
    simp [play, h1, h2]
  exact ⟨hp, by rw [hp]; exact h3⟩

/-- Witness for C5: guessing the mine at (0,0) of a concrete 2x2 grid loses
without opening the cell. -/
theorem C5_mine_guess_loses_witness :
    (mkGrid 2 2 [(0, 0)]).has_unopened_non_mines = true ∧
    (getCell (mkGrid 2 2 [(0, 0)]).cells 0 0).has_mine = true ∧
    (play (mkGrid 2 2 [(0, 0)]) [(0, 0)] = (GameState.Lost, mkGrid 2 2 [(0, 0)]) ∧
      (getCell (play (mkGrid 2 2 [(0, 0)]) [(0, 0)]).2.cells 0 0).is_open = false) :=
  ⟨by decide, by decide,
    C5_mine_guess_loses (mkGrid 2 2 [(0, 0)]) (0, 0) [] (by decide) (by decide) (by decide)⟩

/-- C3 counterexample: the claim says construction fails with InvalidDimension
whenever width <= 0 or height <= 0, but Grid(0, 5) constructs successfully
(mine_count = 0 and random.sample of an empty population with k = 0 succeeds). -/
theorem C3_counterexample :
    ((0 : Int) ≤ 0 ∨ (5 : Int) ≤ 0) ∧ gridInitOk 0 5 = true := by
  exact ⟨Or.inl le_rfl, by decide⟩

/-- C3 amended: Grid.__init__ performs no dimension validation and no
InvalidDimension error exists; for width <= 0 or height <= 0 construction
succeeds exactly when floor(width*height/4) = 0, and otherwise the
random.sample call fails (with ValueError, not InvalidDimension). -/
theorem C3_no_dimension_check (width height : Int) (h : width ≤ 0 ∨ height ≤ 0) :
    gridInitOk width height = true ↔ mineCount width height = 0 := by
  have hlen : (gridCoordinatePositions width height).length = 0 := by
    unfold gridCoordinatePositions
    rw [List.length_product, List.length_range, List.length_range]
    rcases h with h | h
    · rw [Int.toNat_of_nonpos h, Nat.mul_zero]
    · rw [Int.toNat_of_nonpos h, Nat.zero_mul]
  unfold gridInitOk randomSampleOk
  rw [hlen]
  simp only [Bool.and_eq_true, decide_eq_true_eq, Nat.cast_zero]
  omega

/-- Witness for C3's amended statement at width = 0, height = 5. -/
theorem C3_no_dimension_check_witness :
    ((0 : Int) ≤ 0 ∨ (5 : Int) ≤ 0) ∧
    (gridInitOk 0 5 = true ↔ mineCount 0 5 = 0) :=
  ⟨Or.inl le_rfl, C3_no_dimension_check 0 5 (Or.inl le_rfl)⟩

/-- C1: for width, height > 0 and any list of positions random.sample can
return, the constructed grid has exactly floor(width*height/4) cells with
hasMine=true, and the mine positions are pairwise distinct. -/
theorem C1_mine_total (width height : Int) (minePos : List (Nat × Nat))
    (_hw : 0 < width) (_hh : 0 < height)
    (hs : randomSampleSpec (gridCoordinatePositions width height)
      (mineCount width height) minePos) :
    (mkGrid width height minePos).totalMines = (mineCount width height).toNat ∧
    minePos.Nodup := by
  obtain ⟨hlen, hnd, hsub⟩ := hs
  refine ⟨?_, hnd⟩
  rw [totalMines_mkGrid width height minePos hnd hsub]
  omega

/-- Witness for C1 on a concrete 2x2 grid with the mine at (1,1). -/
theorem C1_mine_total_witness :
    randomSampleSpec (gridCoordinatePositions 2 2) (mineCount 2 2) [(1, 1)] ∧
    ((mkGrid 2 2 [(1, 1)]).totalMines = (mineCount 2 2).toNat ∧
      ([(1, 1)] : List (Nat × Nat)).Nodup) :=
  ⟨by decide, C1_mine_total 2 2 [(1, 1)] (by decide) (by decide) (by decide)⟩

/-- C6: for width=2, height=2, every constructed grid has mine_count = 1,
exactly one of the 4 cells has hasMine=true, and each of the other three
cells has adjacent_mines_count = 1, regardless of which position the mine
occupies. -/
theorem C6_two_by_two (minePos : List (Nat × Nat))
    (hs : randomSampleSpec (gridCoordinatePositions 2 2) (mineCount 2 2) minePos) :
    (mkGrid 2 2 minePos).mine_count = 1 ∧
    (mkGrid 2 2 minePos).totalMines = 1 ∧
    ∀ r < 2, ∀ c < 2, (getCell (mkGrid 2 2 minePos).cells r c).has_mine = false →
      (getCell (mkGrid 2 2 minePos).cells r c).adjacent_mines_count = 1 := by
  obtain ⟨hlen, hnd, hsub⟩ := hs
  have hmc : minePos.length = 1 := by
    have h1 : mineCount 2 2 = 1 := by decide
    rw [h1] at hlen
    omega
  match minePos, hmc with
  | [p], _ =>
    have hp : p ∈ gridCoordinatePositions 2 2 := hsub p (List.mem_cons_self _ _)
    have hco : gridCoordinatePositions 2 2 =
        [((0 : Nat), (0 : Nat)), (0, 1), (1, 0), (1, 1)] := by decide
    rw [hco] at hp
    simp only [List.mem_cons, List.not_mem_nil, or_false] at hp
    rcases hp with hp | hp | hp | hp <;> subst hp <;> decide

/-- Witness for C6 with the mine at (0,1). -/
theorem C6_two_by_two_witness :
    randomSampleSpec (gridCoordinatePositions 2 2) (mineCount 2 2) [(0, 1)] ∧
    ((mkGrid 2 2 [(0, 1)]).mine_count = 1 ∧
      (mkGrid 2 2 [(0, 1)]).totalMines = 1 ∧
      ∀ r < 2, ∀ c < 2,
        (getCell (mkGrid 2 2 [(0, 1)]).cells r c).has_mine = false →
        (getCell (mkGrid 2 2 [(0, 1)]).cells r c).adjacent_mines_count = 1) :=
  ⟨by decide, C6_two_by_two [(0, 1)] (by decide)⟩

/-- C9: mine cells always carry adjacent_mines_count = 0 — established at
construction (counts are written only at non-mine positions) and preserved by
every sequence of open operations; consequently a mine cell rendered as opened
would display the string "0". -/
theorem C9_mine_count_zero (width height : Int) (minePos : List (Nat × Nat))
    (hs : randomSampleSpec (gridCoordinatePositions width height)
      (mineCount width height) minePos) :
    ∀ (ops : List (Nat × Nat)) (r c : Nat),
      (getCell ((ops.foldl (fun g' q => g'.openCell q.1 q.2)
          (mkGrid width height minePos)).cells) r c).has_mine = true →
      (getCell ((ops.foldl (fun g' q => g'.openCell q.1 q.2)
          (mkGrid width height minePos)).cells) r c).adjacent_mines_count = 0 ∧
      Cell.str { getCell ((ops.foldl (fun g' q => g'.openCell q.1 q.2)
          (mkGrid width height minePos)).cells) r c with is_open := true } = "0" := by
  obtain ⟨hlen, hnd, hsub⟩ := hs
  intro ops r c hmine
  rw [has_mine_foldOpen, has_mine_mkGrid width height minePos hsub] at hmine
  have hm : (r, c) ∈ minePos := by simpa [mineAt] using hmine
  have hb := (mem_gridCoordinatePositions width height _).mp (hsub _ hm)
  have hval := getCell_mkGrid width height minePos hsub r c
  rw [if_pos ⟨hb.1, hb.2⟩] at hval
  have hcount : (getCell ((ops.foldl (fun g' q => g'.openCell q.1 q.2)
      (mkGrid width height minePos)).cells) r c).adjacent_mines_count = 0 := by
    rw [count_foldOpen, hval]
    simp [gridCellValue, hm]
  refine ⟨hcount, ?_⟩
  rw [Cell.str]
  simp [hcount]

/-- Witness for C9: the mine cell (0,0) of a concrete grid, after opening
(0,1), still has count 0 and would display "0" if opened. -/
theorem C9_mine_count_zero_witness :
    randomSampleSpec (gridCoordinatePositions 2 2) (mineCount 2 2) [(0, 0)] ∧
    (getCell (([((0 : Nat), (1 : Nat))].foldl (fun g' q => g'.openCell q.1 q.2)
        (mkGrid 2 2 [(0, 0)])).cells) 0 0).adjacent_mines_count = 0 ∧
    Cell.str { getCell (([((0 : Nat), (1 : Nat))].foldl (fun g' q => g'.openCell q.1 q.2)
        (mkGrid 2 2 [(0, 0)])).cells) 0 0 with is_open := true } = "0" :=
  ⟨by decide,
    C9_mine_count_zero 2 2 [(0, 0)] (by decide) [(0, 1)] 0 0 (by decide)⟩

/-- C2: for every constructed grid with width, height > 0 and every in-bounds
non-mine cell (r, c), the stored adjacent_mines_count equals the exact number
of mine cells among the up-to-8 in-bounds neighbours (offsets
{-1,0,1}x{-1,0,1} minus (0,0), clipped at the grid edge, no wraparound and no
error; the code's 3x3 window additionally visits the centre, which is a
non-mine and contributes nothing). -/
theorem C2_adjacent_count (width height : Int) (minePos : List (Nat × Nat))
    (_hw : 0 < width) (_hh : 0 < height)
    (hs : randomSampleSpec (gridCoordinatePositions width height)
      (mineCount width height) minePos)
    (r c : Nat) (hr : r < height.toNat) (hc : c < width.toNat)
    (hmine : (getCell (mkGrid width height minePos).cells r c).has_mine = false) :
    (getCell (mkGrid width height minePos).cells r c).adjacent_mines_count =
      specAdjacentMineCount (mkGrid width height minePos) r c := by
  obtain ⟨hlen, hnd, hsub⟩ := hs
  have hm : (r, c) ∉ minePos := by
    have h := has_mine_mkGrid width height minePos hsub r c
    rw [hmine] at h
    intro hmem
    rw [mineAt] at h
    simp [hmem] at h
  have hval := getCell_mkGrid width height minePos hsub r c
  rw [if_pos ⟨hr, hc⟩] at hval
  rw [hval, gridCellValue, if_neg hm]
  show neighborMineCount width height minePos r c = _
  unfold specAdjacentMineCount neighborMineCount intRange3 isValidPosition
  simp only [has_mine_mkGrid width height minePos hsub]
  have hW : (mkGrid width height minePos).width = width := rfl
  have hH : (mkGrid width height minePos).height = height := rfl
  simp [hW, hH, List.product_cons, List.countP_cons, List.countP_append,
    List.countP_map, Int.sub_eq_add_neg, add_zero, mineAt, hm, Int.toNat_natCast]

/-- Witness for C2: the non-mine corner (1,1) of a concrete 2x2 grid with the
mine at (0,0) carries exactly the spec neighbour count. -/
theorem C2_adjacent_count_witness :
    randomSampleSpec (gridCoordinatePositions 2 2) (mineCount 2 2) [(0, 0)] ∧
    (getCell (mkGrid 2 2 [(0, 0)]).cells 1 1).has_mine = false ∧
    (getCell (mkGrid 2 2 [(0, 0)]).cells 1 1).adjacent_mines_count =
      specAdjacentMineCount (mkGrid 2 2 [(0, 0)]) 1 1 :=
  ⟨by decide, by decide,
    C2_adjacent_count 2 2 [(0, 0)] (by decide) (by decide) (by decide) 1 1
      (by decide) (by decide) (by decide)⟩

/-! Python negative-index wrapping. -/

theorem pyGet_wrap {α : Type} (l : List α) (i : Int)
    (h0 : -(l.length : Int) ≤ i) (h1 : i < (l.length : Int)) :
    pyGet l i = l[(i % (l.length : Int)).toNat]? := by
  simp only [pyGet]
  by_cases hi : i < 0
  · simp only [if_pos hi]
    have hcond : 0 ≤ i + (l.length : Int) ∧ i + (l.length : Int) < (l.length : Int) := by
      omega
    rw [if_pos hcond]
    have hself : (i + (l.length : Int) * 1) % (l.length : Int) =
        i % (l.length : Int) := Int.add_mul_emod_self_left i (l.length : Int) 1
    rw [mul_one] at hself
    have hemod : i % (l.length : Int) = i + (l.length : Int) := by
      rw [← hself, Int.emod_eq_of_lt hcond.1 hcond.2]
    rw [hemod]
  · simp only [if_neg hi]
    have hge : 0 ≤ i := not_lt.mp hi
    rw [if_pos ⟨hge, h1⟩, Int.emod_eq_of_lt hge h1]

/-- C10: for a constructed grid and negative indices in Python's wrapping
range (-height <= row < 0 or -width <= col < 0, the other coordinate also
within its wrapping range), the public queries is_cell_opened(row, col) and
has_mine_at((row, col)) do not fail: they return the state of the cell at
(row mod height, col mod width). -/
theorem C10_negative_index_wrap (width height : Int) (minePos : List (Nat × Nat))
    (hw : 0 < width) (hh : 0 < height)
    (_hs : randomSampleSpec (gridCoordinatePositions width height)
      (mineCount width height) minePos)
    (row col : Int) (hr0 : -height ≤ row) (hr1 : row < height)
    (hc0 : -width ≤ col) (hc1 : col < width) (_hneg : row < 0 ∨ col < 0) :
    (mkGrid width height minePos).is_cell_opened row col =
      some ((getCell (mkGrid width height minePos).cells
        (row % height).toNat (col % width).toNat).is_open) ∧
    (mkGrid width height minePos).has_mine_at (row, col) =
      some ((getCell (mkGrid width height minePos).cells
        (row % height).toNat (col % width).toNat).has_mine) := by
  have hcl : ((mkGrid width height minePos).cells.length : Int) = height := by
    rw [length_mkGrid_cells]
    exact Int.toNat_of_nonneg (le_of_lt hh)
  have hrowGet : pyGet (mkGrid width height minePos).cells row =
      (mkGrid width height minePos).cells[(row % height).toNat]? := by
    have h := pyGet_wrap (mkGrid width height minePos).cells row
      (by rw [hcl]; exact hr0) (by rw [hcl]; exact hr1)
    rw [hcl] at h
    exact h
  have hridx : (row % height).toNat < (mkGrid width height minePos).cells.length := by
    rw [length_mkGrid_cells]
    have h1 := Int.emod_nonneg row (by omega : height ≠ 0)
    have h2 := Int.emod_lt_of_pos row hh
    omega
  have hrowval : (mkGrid width height minePos).cells[(row % height).toNat]? =
      some ((mkGrid width height minePos).cells.getD (row % height).toNat []) := by
    rw [List.getElem?_eq_getElem hridx, getD_eq_getElem_of_lt _ _ _ hridx]
  have hRlen : (((mkGrid width height minePos).cells.getD
      (row % height).toNat []).length : Int) = width := by
    rw [getD_mkGrid_length,
      if_pos (by rw [← length_mkGrid_cells width height minePos]; exact hridx)]
    exact Int.toNat_of_nonneg (le_of_lt hw)
  have hcolGet : pyGet ((mkGrid width height minePos).cells.getD
      (row % height).toNat []) col =
      ((mkGrid width height minePos).cells.getD
        (row % height).toNat [])[(col % width).toNat]? := by
    have h := pyGet_wrap ((mkGrid width height minePos).cells.getD
      (row % height).toNat []) col (by rw [hRlen]; exact hc0) (by rw [hRlen]; exact hc1)
    rw [hRlen] at h
    exact h
  have hcidx : (col % width).toNat < ((mkGrid width height minePos).cells.getD
      (row % height).toNat []).length := by
    have h1 := Int.emod_nonneg col (by omega : width ≠ 0)
    have h2 := Int.emod_lt_of_pos col hw
    omega
  have hcolval : ((mkGrid width height minePos).cells.getD
      (row % height).toNat [])[(col % width).toNat]? =
      some (getCell (mkGrid width height minePos).cells
        (row % height).toNat (col % width).toNat) := by
    rw [List.getElem?_eq_getElem hcidx]
    rw [getCell, getD_eq_getElem_of_lt _ _ _ hcidx]
  constructor
  · rw [Grid.is_cell_opened, hrowGet, hrowval]
    show ((pyGet ((mkGrid width height minePos).cells.getD
      (row % height).toNat []) col).map (fun cell => cell.is_open)) = _
    rw [hcolGet, hcolval]
    rfl
  · rw [Grid.has_mine_at, hrowGet, hrowval]
    show ((pyGet ((mkGrid width height minePos).cells.getD
      (row % height).toNat []) col).map (fun cell => cell.has_mine)) = _
    rw [hcolGet, hcolval]
    rfl

/-- Witness for C10: querying (-1, -2) on a concrete 2x2 grid wraps to (1, 0). -/
theorem C10_negative_index_wrap_witness :
    randomSampleSpec (gridCoordinatePositions 2 2) (mineCount 2 2) [(0, 0)] ∧
    ((mkGrid 2 2 [(0, 0)]).is_cell_opened (-1) (-2) =
      some ((getCell (mkGrid 2 2 [(0, 0)]).cells
        ((-1 : Int) % 2).toNat ((-2 : Int) % 2).toNat).is_open) ∧
    (mkGrid 2 2 [(0, 0)]).has_mine_at (-1, -2) =
      some ((getCell (mkGrid 2 2 [(0, 0)]).cells
        ((-1 : Int) % 2).toNat ((-2 : Int) % 2).toNat).has_mine)) :=
  ⟨by decide,
    C10_negative_index_wrap 2 2 [(0, 0)] (by decide) (by decide) (by decide)
      (-1) (-2) (by decide) (by decide) (by decide) (by decide) (Or.inl (by decide))⟩

end Mines
